import Mathlib

/-!
Shallow embedding of the scheduling core of the `medication_tracker`
repository (`custom_components/medication_tracker/models.py`), together with
proofs about its schedule engine, status resolver and occurrence ledger.

Modelling conventions:

* All instants that enter the engine are local wall-clock datetimes at minute
  granularity (the source's time-of-day strings are `HH:MM`, and every
  comparison in the source happens after `dt_util.as_local`).  We therefore
  work in a single fixed time zone: `as_local` is the identity, and a
  `DateTime` is a Gregorian calendar date plus an hour/minute time of day.
  Ordering and `timedelta` arithmetic on Python datetimes are mirrored through
  `DateTime.toMin`, the total number of minutes since the (proleptic)
  Gregorian epoch, which is strictly monotone in calendar order.
* `HH:MM` strings are modelled already parsed, as a `TimeOfDay` structure
  (hour/minute); malformed time strings are a caller contract violation in the
  spec and never arise in the claims.
* Python dictionaries produced by `to_dict`/consumed by `from_dict` are
  modelled as `Stored…` record structures with one field per dictionary key.
  ISO-8601 formatting/parsing is injective and mutually inverse, so a
  serialized timestamp is represented by its `DateTime` value; the
  `"T" in s` discrimination between stored dates and stored datetimes is
  represented by the two constructors of `DateSpec`.
* The optional event callback of `MedicationEntry` is modelled by returning,
  next to the updated entry, the `Bool` that tells whether a state-change
  event was fired (the source fires exactly when a callback is installed and
  the old and new status differ; we model the fired condition
  `old_status != new_status`).
-/

namespace Med

/-- A Gregorian calendar date (`datetime.date`). -/
structure Date where
  year : Nat
  month : Nat
  day : Nat
deriving DecidableEq

/-- A wall-clock time of day at minute granularity: the parsed form of an
`"HH:MM"` medication time string. -/
structure TimeOfDay where
  hour : Nat
  minute : Nat
deriving DecidableEq

/-- A local wall-clock datetime (`datetime.datetime` after `dt_util.as_local`). -/
structure DateTime where
  date : Date
  time : TimeOfDay
deriving DecidableEq

/-- Gregorian leap-year test. -/
def isLeap (y : Nat) : Bool :=
  (y % 4 = 0 && y % 100 ≠ 0) || y % 400 = 0

/-- Number of days in a month of a given year. -/
def daysInMonth (y m : Nat) : Nat :=
  if m = 2 then (if isLeap y then 29 else 28)
  else if m = 4 ∨ m = 6 ∨ m = 9 ∨ m = 11 then 30
  else 31

/-- Days in the years `1, …, y-1` of the proleptic Gregorian calendar. -/
def daysBeforeYear (y : Nat) : Nat :=
  365 * (y - 1) + (y - 1) / 4 - (y - 1) / 100 + (y - 1) / 400

/-- Days in the months `1, …, m-1` of year `y`. -/
def daysBeforeMonth (y m : Nat) : Nat :=
  (List.range (m - 1)).foldl (fun acc k => acc + daysInMonth y (k + 1)) 0

/-- Ordinal day number of a date (day 0 = January 1 of year 1).  Python's
`date` total order coincides with the order of this number. -/
def Date.toOrdinal (d : Date) : Nat :=
  daysBeforeYear d.year + daysBeforeMonth d.year d.month + (d.day - 1)

/-- Minutes since the epoch; Python's (single-zone) `datetime` total order and
`timedelta` arithmetic coincide with `Nat` order/arithmetic on this number. -/
def DateTime.toMin (t : DateTime) : Nat :=
  1440 * t.date.toOrdinal + 60 * t.time.hour + t.time.minute

/-- Strict order on dates (`date.__lt__`). -/
def dateLt (a b : Date) : Bool := a.toOrdinal < b.toOrdinal

/-- Strict order on datetimes (`datetime.__lt__`). -/
def dtLt (a b : DateTime) : Bool := a.toMin < b.toMin

/-- Non-strict order on datetimes (`datetime.__le__`). -/
def dtLe (a b : DateTime) : Bool := a.toMin ≤ b.toMin

/-- The calendar day after `d` (`+ timedelta(days=1)`). -/
def Date.nextDay (d : Date) : Date :=
  if d.day < daysInMonth d.year d.month then ⟨d.year, d.month, d.day + 1⟩
  else if d.month < 12 then ⟨d.year, d.month + 1, 1⟩
  else ⟨d.year + 1, 1, 1⟩

/-- `d + timedelta(days=n)`. -/
def Date.addDays (d : Date) (n : Nat) : Date :=
  Date.nextDay^[n] d

/-- `dt_util.as_local`: every instant in this embedding already lives in the
single local zone, so re-interpreting as local is the identity. -/
def as_local (t : DateTime) : DateTime := t

/-- `datetime.combine(d, time(hour, minute))`. -/
def combine (d : Date) (t : TimeOfDay) : DateTime := ⟨d, t⟩

-- Frequency constants from `const.py`.

def FREQUENCY_DAILY : String := "daily"
def FREQUENCY_WEEKLY : String := "weekly"
def FREQUENCY_MONTHLY : String := "monthly"
def FREQUENCY_AS_NEEDED : String := "as_needed"

-- State constants from `const.py`.

def STATE_DUE : String := "due"
def STATE_TAKEN : String := "taken"
def STATE_OVERDUE : String := "overdue"
def STATE_NOT_DUE : String := "not_due"
def STATE_SKIPPED : String := "skipped"

/-- An optional active-range bound of `MedicationData`: the source stores
either a `date` (whole-day granularity) or a zoned `datetime`. -/
inductive DateSpec where
  | d (value : Date)
  | dt (value : DateTime)
deriving DecidableEq

/-- `MedicationData`: the recurrence rule / medication configuration. -/
structure MedicationData where
  name : String
  dosage : String
  frequency : String
  times : List TimeOfDay
  start_date : Option DateSpec
  end_date : Option DateSpec
  notes : String
deriving DecidableEq

/-- `DoseRecord`: one occurrence in the ledger. -/
structure DoseRecord where
  timestamp : DateTime
  taken : Bool
  notes : String
deriving DecidableEq

/-- `MedicationEntry`: the mutable tracked item.  `current_status` and
`next_due` are the source's `_current_status` and `_next_due` fields; the
event callback is modelled by the `Bool` component of `update_status`. -/
structure MedicationEntry where
  id : String
  device_id : String
  data : MedicationData
  dose_history : List DoseRecord
  current_status : String
  next_due : Option DateTime
deriving DecidableEq

/-- Property `last_taken`: timestamp of the most recent taken dose, scanned
from the end of the history. -/
def MedicationEntry.last_taken (e : MedicationEntry) : Option DateTime :=
  (e.dose_history.reverse.find? (fun record => record.taken)).map
    (fun record => record.timestamp)

/-- Property `missed_doses`: number of skipped occurrences. -/
def MedicationEntry.missed_doses (e : MedicationEntry) : Nat :=
  (e.dose_history.filter (fun record => !record.taken)).length

/-- Property `adherence_rate`: `taken/total × 100`, or `0` for an empty
history (the source computes in floating point; the value is an exact ratio
of small integers, modelled in `ℚ`). -/
def MedicationEntry.adherence_rate (e : MedicationEntry) : ℚ :=
  if e.dose_history.isEmpty then 0
  else ((e.dose_history.filter (fun record => record.taken)).length : ℚ) /
    (e.dose_history.length : ℚ) * 100

/-- `_was_dose_handled_for_time`: was any occurrence (taken or skipped)
recorded on the calendar date of `scheduled_time`? -/
def MedicationEntry.was_dose_handled_for_time
    (e : MedicationEntry) (scheduled_time : DateTime) : Bool :=
  if e.dose_history.isEmpty then false
  else
    let scheduled_date := (as_local scheduled_time).date
    e.dose_history.any (fun dose =>
      decide ((as_local dose.timestamp).date = scheduled_date))

/-- `_was_taken_today`: same local calendar day? -/
def was_taken_today (current_time last_taken : DateTime) : Bool :=
  decide ((as_local current_time).date = (as_local last_taken).date)

/-- One step of the source's running-minimum accumulation
(`if p x: if next_due is None or f x < next_due: next_due = f x`). -/
def stepMin (p : TimeOfDay → Bool) (f : TimeOfDay → DateTime)
    (nd : Option DateTime) (x : TimeOfDay) : Option DateTime :=
  if p x then
    match nd with
    | none => some (f x)
    | some b => if dtLt (f x) b then some (f x) else some b
  else nd

/-- The value `_calculate_daily_next_due` stores into `self._next_due`:
first the earliest slot of today strictly after `current_time`; failing that
the earliest slot of today with no occurrence recorded on today's date;
failing that the first listed slot of tomorrow.  (With an empty `times` list
the source would raise `IndexError` on `times[0]`; that point is unreachable
through `_calculate_next_due`, which injects a default first, and is modelled
as `none`.) -/
def MedicationEntry.daily_next_due_value
    (e : MedicationEntry) (current_time : DateTime) : Option DateTime :=
  let current_local := as_local current_time
  let today := current_local.date
  let next1 := e.data.times.foldl
    (stepMin (fun t => dtLt current_local (as_local (combine today t)))
      (fun t => as_local (combine today t))) none
  match next1 with
  | some nd => some nd
  | none =>
    let next2 := e.data.times.foldl
      (stepMin (fun t => !(e.was_dose_handled_for_time (as_local (combine today t))))
        (fun t => as_local (combine today t))) none
    match next2 with
    | some nd => some nd
    | none =>
      match e.data.times with
      | [] => none
      | t0 :: _ => some (as_local (combine today.nextDay t0))

/-- `_calculate_daily_next_due`: sets `self._next_due`. -/
def MedicationEntry.calculate_daily_next_due
    (e : MedicationEntry) (current_time : DateTime) : MedicationEntry :=
  { e with next_due := e.daily_next_due_value current_time }

/-- Inject the `["09:00"]` default into an empty `times` list (the source's
`if not self.data.times: self.data.times = ["09:00"]`, an in-place mutation
of the rule). -/
def MedicationEntry.inject_default_times (e : MedicationEntry) : MedicationEntry :=
  if e.data.times = [] then
    { e with data := { e.data with times := [⟨9, 0⟩] } }
  else e

/-- `self.dose_history and not self.dose_history[-1].taken`: the ledger is
non-empty and its most recent record is a skip. -/
def MedicationEntry.last_record_is_skip (e : MedicationEntry) : Bool :=
  match e.dose_history.getLast? with
  | some record => !record.taken
  | none => false

/-- The value `_calculate_weekly_next_due` stores into `self._next_due`,
computed after the weekly default-times injection (so `times` is non-empty
and `t0` is its first element). -/
def MedicationEntry.weekly_next_due_value
    (e : MedicationEntry) (current_time : DateTime) (t0 : TimeOfDay) :
    Option DateTime :=
  let current_local := as_local current_time
  let last_taken := e.last_taken
  let current_date := current_local.date
  let scheduled_time_today_aware := as_local (combine current_date t0)
  -- `abs((current_local - scheduled_time_today_aware).total_seconds()) < 3600
  --  and self.dose_history and not self.dose_history[-1].taken`
  if ((current_local.toMin : Int) - (scheduled_time_today_aware.toMin : Int)).natAbs
        * 60 < 3600
      ∧ e.last_record_is_skip = true then
    -- next dose: 7 days from the scheduled slot being skipped
    some (as_local (combine (current_date.addDays 7) t0))
  else
    match last_taken with
    | some lt =>
      -- 7 days from the date the last dose was taken, at the scheduled time
      some (as_local (combine ((as_local lt).date.addDays 7) t0))
    | none =>
      -- first dose: first occurrence of the slot on/after the start date
      let start_date :=
        match e.data.start_date with
        | some (DateSpec.dt sd) => (as_local sd).date
        | some (DateSpec.d sd) => sd
        | none => current_local.date
      let due_time := as_local (combine start_date t0)
      if dtLe due_time current_local then
        some (as_local (combine (start_date.addDays 7) t0))
      else
        some due_time

/-- `_calculate_weekly_next_due`: injects the default `times` if empty, then
sets `self._next_due`. -/
def MedicationEntry.calculate_weekly_next_due
    (e : MedicationEntry) (current_time : DateTime) : MedicationEntry :=
  let e := e.inject_default_times
  match e.data.times with
  | [] => e
  | t0 :: _ => { e with next_due := e.weekly_next_due_value current_time t0 }

/-- The year/month following the month of `d`
(`d.replace(year=d.year+1, month=1)` for December, `d.replace(month=d.month+1)`
otherwise, before day-validity is considered). -/
def nextYearMonth (d : Date) : Nat × Nat :=
  if d.month = 12 then (d.year + 1, 1) else (d.year, d.month + 1)

/-- The value `_calculate_monthly_next_due` stores into `self._next_due`.
The source's `try: replace(month=month+1) except ValueError:` pairs are
modelled by testing whether the day of month exists in the following month
(the only way `replace` can raise there). -/
def MedicationEntry.monthly_next_due_value
    (e : MedicationEntry) (current_time : DateTime) : Option DateTime :=
  let current_local := as_local current_time
  let last_taken := e.last_taken
  if e.last_record_is_skip = true ∧ last_taken.isSome = true then
    -- most recent record is a skip after an earlier taken dose:
    -- advance one month from the current date, at the last-taken time of day
    let current_date := current_local.date
    let ym := nextYearMonth current_date
    if current_date.day ≤ daysInMonth ym.1 ym.2 then
      match last_taken with
      | some lt =>
        some (as_local (combine ⟨ym.1, ym.2, current_date.day⟩ (as_local lt).time))
      | none => none
    else
      -- `except ValueError`: clamp to the first of the month, 09:00 default
      some (as_local (combine ⟨ym.1, ym.2, 1⟩ ⟨9, 0⟩))
  else
    match last_taken with
    | some lt =>
      -- normal case: `last_taken.replace(month=month+1)`, keeping the time
      let ym := nextYearMonth lt.date
      if lt.date.day ≤ daysInMonth ym.1 ym.2 then
        some ⟨⟨ym.1, ym.2, lt.date.day⟩, lt.time⟩
      else
        -- `except ValueError`: clamp to day 1 of the following month
        some ⟨⟨ym.1, ym.2, 1⟩, lt.time⟩
    | none =>
      -- first dose: use the current time itself
      some current_time

/-- `_calculate_monthly_next_due`: sets `self._next_due`. -/
def MedicationEntry.calculate_monthly_next_due
    (e : MedicationEntry) (current_time : DateTime) : MedicationEntry :=
  { e with next_due := e.monthly_next_due_value current_time }

/-- `_calculate_next_due`: returns immediately for `as-needed`, injects the
default `times` when empty, then dispatches on the frequency string. -/
def MedicationEntry.calculate_next_due
    (e : MedicationEntry) (current_time : DateTime) : MedicationEntry :=
  if e.data.frequency = FREQUENCY_AS_NEEDED then e
  else
    let e := e.inject_default_times
    if e.data.frequency = FREQUENCY_DAILY then
      e.calculate_daily_next_due current_time
    else if e.data.frequency = FREQUENCY_WEEKLY then
      e.calculate_weekly_next_due current_time
    else if e.data.frequency = FREQUENCY_MONTHLY then
      e.calculate_monthly_next_due current_time
    else e

/-- `_update_next_due`: recompute after a dose is recorded (no default-times
injection at this level, mirroring the source). -/
def MedicationEntry.update_next_due
    (e : MedicationEntry) (taken_time : DateTime) : MedicationEntry :=
  if e.data.frequency = FREQUENCY_DAILY then
    e.calculate_daily_next_due taken_time
  else if e.data.frequency = FREQUENCY_WEEKLY then
    e.calculate_weekly_next_due taken_time
  else if e.data.frequency = FREQUENCY_MONTHLY then
    e.calculate_monthly_next_due taken_time
  else e

/-- `_get_dose_interval`, in minutes. -/
def get_dose_interval (frequency : String) : Int :=
  if frequency = FREQUENCY_DAILY then 1440
  else if frequency = FREQUENCY_WEEKLY then 7 * 1440
  else if frequency = FREQUENCY_MONTHLY then 30 * 1440
  else 1440

/-- The daily-case scan of `_check_recently_skipped`: walk the history from
most recent to oldest; the first record dated today is the answer, and any
record dated before today stops the scan (records dated after today are
passed over). -/
def find_most_recent_today (l : List DoseRecord) (today : Date) :
    Option DoseRecord :=
  match l with
  | [] => none
  | record :: rest =>
    let record_date := (as_local record.timestamp).date
    if record_date = today then some record
    else if dateLt record_date today then none
    else find_most_recent_today rest today

/-- `_check_recently_skipped`. -/
def MedicationEntry.check_recently_skipped
    (e : MedicationEntry) (current_time : DateTime) : Bool :=
  if e.dose_history.isEmpty then false
  else
    let current_local := as_local current_time
    if e.data.frequency = FREQUENCY_DAILY then
      let today := current_local.date
      match find_most_recent_today e.dose_history.reverse today with
      | some record => !record.taken
      | none => false
    else
      match e.dose_history.getLast?, e.next_due with
      | some record, some nd => !record.taken && dtLt current_local nd
      | _, _ => false

/-- The `start_date` guard of `update_status`: is `current_local` before the
active range? -/
def MedicationEntry.start_blocked
    (e : MedicationEntry) (current_local : DateTime) : Bool :=
  match e.data.start_date with
  | some (DateSpec.dt sd) => dtLt current_local sd
  | some (DateSpec.d sd) => dateLt current_local.date sd
  | none => false

/-- The `end_date` guard of `update_status`: is `current_local` after the
active range? -/
def MedicationEntry.end_blocked
    (e : MedicationEntry) (current_local : DateTime) : Bool :=
  match e.data.end_date with
  | some (DateSpec.dt ed) => dtLt ed current_local
  | some (DateSpec.d ed) => dateLt ed current_local.date
  | none => false

/-- Lines 248–249 of `update_status`: compute the next due time when no
cached value is present. -/
def MedicationEntry.compute_next_if_absent
    (e : MedicationEntry) (current_time : DateTime) : MedicationEntry :=
  match e.next_due with
  | none => e.calculate_next_due current_time
  | some _ => e

/-- The status chosen by the tail of `update_status` (lines 263–303), as a
function of the entry whose next-due has already been ensured. -/
def MedicationEntry.resolve_status
    (e : MedicationEntry) (current_local : DateTime) : String :=
  match e.next_due with
  | none => STATE_NOT_DUE
  | some nd =>
    if e.check_recently_skipped current_local then STATE_SKIPPED
    else if dtLe nd current_local then
      -- `current_local > next_due + timedelta(hours=2)`
      if nd.toMin + 120 < current_local.toMin then STATE_OVERDUE
      else STATE_DUE
    else
      match e.last_taken with
      | none => STATE_NOT_DUE
      | some lt =>
        if e.data.frequency = FREQUENCY_DAILY then
          if was_taken_today current_local lt then STATE_TAKEN
          else STATE_NOT_DUE
        else
          -- `current_local - last_taken < self._get_dose_interval()`
          if (current_local.toMin : Int) - ((as_local lt).toMin : Int)
              < get_dose_interval e.data.frequency then STATE_TAKEN
          else STATE_NOT_DUE

/-- `update_status`: returns the updated entry paired with the fired flag of
`_fire_state_change_event` (`old_status != new_status`). -/
def MedicationEntry.update_status
    (e : MedicationEntry) (current_time : DateTime) : MedicationEntry × Bool :=
  let old_status := e.current_status
  let current_local := as_local current_time
  if e.start_blocked current_local then
    ({ e with current_status := STATE_NOT_DUE },
      decide (old_status ≠ STATE_NOT_DUE))
  else if e.end_blocked current_local then
    ({ e with current_status := STATE_NOT_DUE },
      decide (old_status ≠ STATE_NOT_DUE))
  else if e.data.frequency = FREQUENCY_AS_NEEDED then
    ({ e with current_status := STATE_NOT_DUE },
      decide (old_status ≠ STATE_NOT_DUE))
  else
    let e := e.compute_next_if_absent current_time
    let s := e.resolve_status current_local
    ({ e with current_status := s }, decide (old_status ≠ s))

/-- `record_dose_taken`: append a taken occurrence, recompute the next due
time from the taken timestamp, then update the status. -/
def MedicationEntry.record_dose_taken
    (e : MedicationEntry) (timestamp : DateTime) (notes : String) :
    MedicationEntry :=
  let e := { e with
    dose_history := e.dose_history ++ [(⟨timestamp, true, notes⟩ : DoseRecord)] }
  let e := e.update_next_due timestamp
  (e.update_status timestamp).1

/-- `record_dose_skipped`: append a skipped occurrence, recompute the next
due time from the previously scheduled time (falling back to the skip
timestamp), then update the status. -/
def MedicationEntry.record_dose_skipped
    (e : MedicationEntry) (timestamp : DateTime) (notes : String) :
    MedicationEntry :=
  let e := { e with
    dose_history := e.dose_history ++ [(⟨timestamp, false, notes⟩ : DoseRecord)] }
  let scheduled_time := match e.next_due with
    | some nd => nd
    | none => timestamp
  let e := e.update_next_due scheduled_time
  (e.update_status timestamp).1

/-- The dictionary produced by `MedicationData.to_dict`.  A stored
`start_date`/`end_date` is an ISO-8601 string; whether it contains a `"T"`
(datetime) or not (plain date) is carried by the `DateSpec` constructor. -/
structure StoredMedicationData where
  name : String
  dosage : String
  frequency : String
  times : List TimeOfDay
  start_date : Option DateSpec
  end_date : Option DateSpec
  notes : String
deriving DecidableEq

/-- The dictionary produced by `DoseRecord.to_dict` (`timestamp` is stored as
an ISO-8601 string, represented by its value). -/
structure StoredDoseRecord where
  timestamp : DateTime
  taken : Bool
  notes : String
deriving DecidableEq

/-- The dictionary produced by `MedicationEntry.to_dict`.  `device_id` is
optional on load (legacy records may lack it). -/
structure StoredEntry where
  id : String
  device_id : Option String
  data : StoredMedicationData
  dose_history : List StoredDoseRecord
deriving DecidableEq

/-- `MedicationData.to_dict`. -/
def MedicationData.to_dict (d : MedicationData) : StoredMedicationData :=
  { name := d.name
    dosage := d.dosage
    frequency := d.frequency
    times := d.times
    start_date := d.start_date
    end_date := d.end_date
    notes := d.notes }

/-- `MedicationData.from_dict`: a stored datetime (`"T" in s`) is re-anchored
with `dt_util.as_local`; a stored date is parsed as a plain date. -/
def MedicationData.from_dict (s : StoredMedicationData) : MedicationData :=
  { name := s.name
    dosage := s.dosage
    frequency := s.frequency
    times := s.times
    start_date :=
      match s.start_date with
      | some (DateSpec.dt x) => some (DateSpec.dt (as_local x))
      | some (DateSpec.d x) => some (DateSpec.d x)
      | none => none
    end_date :=
      match s.end_date with
      | some (DateSpec.dt x) => some (DateSpec.dt (as_local x))
      | some (DateSpec.d x) => some (DateSpec.d x)
      | none => none
    notes := s.notes }

/-- `DoseRecord.to_dict`. -/
def DoseRecord.to_dict (r : DoseRecord) : StoredDoseRecord :=
  { timestamp := r.timestamp, taken := r.taken, notes := r.notes }

/-- `DoseRecord.from_dict` (a zone-naive stored timestamp is interpreted in
the local zone, which is where every instant of this embedding lives). -/
def DoseRecord.from_dict (s : StoredDoseRecord) : DoseRecord :=
  { timestamp := as_local s.timestamp, taken := s.taken, notes := s.notes }

/-- `MedicationEntry.to_dict`: computed status and next-due are deliberately
not persisted. -/
def MedicationEntry.to_dict (e : MedicationEntry) : StoredEntry :=
  { id := e.id
    device_id := some e.device_id
    data := e.data.to_dict
    dose_history := e.dose_history.map DoseRecord.to_dict }

/-- `MedicationEntry.from_dict`: reconstructs the entry with
`_current_status = STATE_NOT_DUE` and `_next_due = None` — cached values are
never trusted from storage. -/
def MedicationEntry.from_dict (s : StoredEntry) : MedicationEntry :=
  { id := s.id
    device_id :=
      match s.device_id with
      | some d => d
      | none => "medication_" ++ s.id
    data := MedicationData.from_dict s.data
    dose_history := s.dose_history.map DoseRecord.from_dict
    current_status := STATE_NOT_DUE
    next_due := none }

/-- A concrete as-needed item (empty history). -/
def sampleAsNeeded : MedicationEntry :=
  { id := "m1", device_id := "medication_m1"
    data := { name := "Inhaler", dosage := "2 puffs"
              frequency := FREQUENCY_AS_NEEDED, times := []
              start_date := none, end_date := none, notes := "" }
    dose_history := [⟨⟨⟨2025, 8, 6⟩, ⟨9, 30⟩⟩, true, ""⟩]
    current_status := STATE_NOT_DUE, next_due := none }

/-- A concrete daily item with one `09:00` slot and an empty history. -/
def sampleDaily : MedicationEntry :=
  { id := "m2", device_id := "medication_m2"
    data := { name := "Aspirin", dosage := "100mg"
              frequency := FREQUENCY_DAILY, times := [⟨9, 0⟩]
              start_date := none, end_date := none, notes := "" }
    dose_history := [], current_status := STATE_NOT_DUE, next_due := none }

/-- A concrete daily item with an empty `times` list. -/
def sampleDailyNoTimes : MedicationEntry :=
  { id := "m3", device_id := "medication_m3"
    data := { name := "Vitamin", dosage := "1"
              frequency := FREQUENCY_DAILY, times := []
              start_date := none, end_date := none, notes := "" }
    dose_history := [], current_status := STATE_NOT_DUE, next_due := none }

/-- A concrete weekly item whose only dose was taken 2025-08-01T09:15. -/
def sampleWeekly : MedicationEntry :=
  { id := "m4", device_id := "medication_m4"
    data := { name := "MTX", dosage := "10mg"
              frequency := FREQUENCY_WEEKLY, times := [⟨9, 0⟩]
              start_date := none, end_date := none, notes := "" }
    dose_history := [⟨⟨⟨2025, 8, 1⟩, ⟨9, 15⟩⟩, true, ""⟩]
    current_status := STATE_NOT_DUE, next_due := none }

/-- A concrete monthly item whose only dose was taken 2025-08-31T10:00 —
day 31 of a 31-day month, which does not exist in September. -/
def sampleMonthly : MedicationEntry :=
  { id := "m5", device_id := "medication_m5"
    data := { name := "B12", dosage := "1 shot"
              frequency := FREQUENCY_MONTHLY, times := [⟨9, 0⟩]
              start_date := none, end_date := none, notes := "" }
    dose_history := [⟨⟨⟨2025, 8, 31⟩, ⟨10, 0⟩⟩, true, ""⟩]
    current_status := STATE_NOT_DUE, next_due := none }

/-- A concrete daily item on whose single slot day both a skip (09:05) and a
later take (09:10) were recorded. -/
def sampleDailySkipThenTake : MedicationEntry :=
  { id := "m6", device_id := "medication_m6"
    data := { name := "Statin", dosage := "20mg"
              frequency := FREQUENCY_DAILY, times := [⟨9, 0⟩]
              start_date := none, end_date := none, notes := "" }
    dose_history := [⟨⟨⟨2025, 8, 7⟩, ⟨9, 5⟩⟩, false, ""⟩,
                     ⟨⟨⟨2025, 8, 7⟩, ⟨9, 10⟩⟩, true, ""⟩]
    current_status := STATE_NOT_DUE, next_due := none }

/-- A concrete daily item with two slots (09:00 and 21:00) and an empty
history. -/
def sampleDailyTwoSlots : MedicationEntry :=
  { id := "m8", device_id := "medication_m8"
    data := { name := "Levothyroxine", dosage := "50mcg"
              frequency := FREQUENCY_DAILY, times := [⟨9, 0⟩, ⟨21, 0⟩]
              start_date := none, end_date := none, notes := "" }
    dose_history := [], current_status := STATE_NOT_DUE, next_due := none }

/-- A concrete daily item on whose single slot day a take (09:15) and a
later skip (09:30) were recorded. -/
def sampleDailyTakeThenSkip : MedicationEntry :=
  { id := "m7", device_id := "medication_m7"
    data := { name := "Metformin", dosage := "500mg"
              frequency := FREQUENCY_DAILY, times := [⟨9, 0⟩]
              start_date := none, end_date := none, notes := "" }
    dose_history := [⟨⟨⟨2025, 8, 7⟩, ⟨9, 15⟩⟩, true, ""⟩,
                     ⟨⟨⟨2025, 8, 7⟩, ⟨9, 30⟩⟩, false, ""⟩]
    current_status := STATE_NOT_DUE, next_due := none }

/-! ## Frame lemmas: which fields each operation can touch. -/

theorem inject_frame (e : MedicationEntry) :
    e.inject_default_times.id = e.id ∧
    e.inject_default_times.device_id = e.device_id ∧
    e.inject_default_times.dose_history = e.dose_history ∧
    e.inject_default_times.current_status = e.current_status ∧
    e.inject_default_times.next_due = e.next_due ∧
    e.inject_default_times.data.name = e.data.name ∧
    e.inject_default_times.data.dosage = e.data.dosage ∧
    e.inject_default_times.data.frequency = e.data.frequency ∧
    e.inject_default_times.data.start_date = e.data.start_date ∧
    e.inject_default_times.data.end_date = e.data.end_date ∧
    e.inject_default_times.data.notes = e.data.notes := by
  unfold MedicationEntry.inject_default_times
  split <;> simp

theorem inject_of_times_ne (e : MedicationEntry) (h : e.data.times ≠ []) :
    e.inject_default_times = e := by
  unfold MedicationEntry.inject_default_times
  simp [h]

theorem inject_times_ne_nil (e : MedicationEntry) :
    e.inject_default_times.data.times ≠ [] := by
  unfold MedicationEntry.inject_default_times
  split
  · simp
  · simpa using (by assumption : ¬e.data.times = [])

@[simp] theorem inject_dose_history (e : MedicationEntry) :
    e.inject_default_times.dose_history = e.dose_history :=
  (inject_frame e).2.2.1

@[simp] theorem inject_next_due (e : MedicationEntry) :
    e.inject_default_times.next_due = e.next_due :=
  (inject_frame e).2.2.2.2.1

@[simp] theorem inject_frequency (e : MedicationEntry) :
    e.inject_default_times.data.frequency = e.data.frequency :=
  (inject_frame e).2.2.2.2.2.2.2.1

theorem last_taken_congr (e e' : MedicationEntry)
    (h : e.dose_history = e'.dose_history) : e.last_taken = e'.last_taken := by
  unfold MedicationEntry.last_taken
  rw [h]

@[simp] theorem calculate_daily_data (e : MedicationEntry) (t : DateTime) :
    (e.calculate_daily_next_due t).data = e.data := rfl

@[simp] theorem calculate_daily_dose_history (e : MedicationEntry) (t : DateTime) :
    (e.calculate_daily_next_due t).dose_history = e.dose_history := rfl

@[simp] theorem calculate_daily_next_due_val (e : MedicationEntry) (t : DateTime) :
    (e.calculate_daily_next_due t).next_due = e.daily_next_due_value t := rfl

@[simp] theorem calculate_monthly_data (e : MedicationEntry) (t : DateTime) :
    (e.calculate_monthly_next_due t).data = e.data := rfl

@[simp] theorem calculate_monthly_dose_history (e : MedicationEntry) (t : DateTime) :
    (e.calculate_monthly_next_due t).dose_history = e.dose_history := rfl

@[simp] theorem calculate_monthly_next_due_val (e : MedicationEntry) (t : DateTime) :
    (e.calculate_monthly_next_due t).next_due = e.monthly_next_due_value t := rfl

theorem calculate_weekly_dose_history (e : MedicationEntry) (t : DateTime) :
    (e.calculate_weekly_next_due t).dose_history = e.dose_history := by
  simp only [MedicationEntry.calculate_weekly_next_due]
  cases h : e.inject_default_times.data.times with
  | nil => simp [h]
  | cons t0 ts => simp [h]

theorem calculate_weekly_frequency (e : MedicationEntry) (t : DateTime) :
    (e.calculate_weekly_next_due t).data.frequency = e.data.frequency := by
  simp only [MedicationEntry.calculate_weekly_next_due]
  cases h : e.inject_default_times.data.times with
  | nil => simp [h]
  | cons t0 ts => simp [h]

theorem calculate_weekly_data_of_ne (e : MedicationEntry) (t : DateTime)
    (h : e.data.times ≠ []) :
    (e.calculate_weekly_next_due t).data = e.data := by
  simp only [MedicationEntry.calculate_weekly_next_due, inject_of_times_ne e h]
  cases hx : e.data.times with
  | nil => exact absurd hx h
  | cons t0 ts => simp [hx]

theorem calculate_next_due_dose_history (e : MedicationEntry) (t : DateTime) :
    (e.calculate_next_due t).dose_history = e.dose_history := by
  simp only [MedicationEntry.calculate_next_due]
  split_ifs <;>
    simp [calculate_weekly_dose_history]

theorem calculate_next_due_data_of_ne (e : MedicationEntry) (t : DateTime)
    (h : e.data.times ≠ []) :
    (e.calculate_next_due t).data = e.data := by
  simp only [MedicationEntry.calculate_next_due, inject_of_times_ne e h]
  split_ifs <;> simp [calculate_weekly_data_of_ne e t h]

theorem compute_next_if_absent_dose_history (e : MedicationEntry) (t : DateTime) :
    (e.compute_next_if_absent t).dose_history = e.dose_history := by
  unfold MedicationEntry.compute_next_if_absent
  split
  · exact calculate_next_due_dose_history e t
  · rfl

theorem compute_next_if_absent_data_of_ne (e : MedicationEntry) (t : DateTime)
    (h : e.data.times ≠ []) :
    (e.compute_next_if_absent t).data = e.data := by
  unfold MedicationEntry.compute_next_if_absent
  split
  · exact calculate_next_due_data_of_ne e t h
  · rfl

theorem update_status_dose_history (e : MedicationEntry) (t : DateTime) :
    (e.update_status t).1.dose_history = e.dose_history := by
  simp only [MedicationEntry.update_status]
  split_ifs <;> simp [compute_next_if_absent_dose_history]

theorem update_status_data_of_ne (e : MedicationEntry) (t : DateTime)
    (h : e.data.times ≠ []) :
    (e.update_status t).1.data = e.data := by
  simp only [MedicationEntry.update_status]
  split_ifs <;> simp [compute_next_if_absent_data_of_ne e t h]

theorem update_status_as_needed (e : MedicationEntry) (t : DateTime)
    (h : e.data.frequency = FREQUENCY_AS_NEEDED) :
    e.update_status t =
      ({ e with current_status := STATE_NOT_DUE },
        decide (e.current_status ≠ STATE_NOT_DUE)) := by
  simp only [MedicationEntry.update_status]
  split_ifs <;> rfl

/-! ## Claim theorems. -/

/-- C8.  An item whose frequency is as-needed never produces a next-due time
(`_calculate_next_due` returns immediately, leaving the cached value alone and
hence `none` on any fresh state), and `update_status` always classifies it
NOT_DUE, whatever the history and evaluation time. -/
theorem C8_as_needed_never_due (e : MedicationEntry) (t : DateTime)
    (h : e.data.frequency = FREQUENCY_AS_NEEDED) :
    (e.update_status t).1.current_status = STATE_NOT_DUE ∧
    e.calculate_next_due t = e ∧
    (e.next_due = none → (e.update_status t).1.next_due = none) := by
  rw [update_status_as_needed e t h]
  refine ⟨rfl, ?_, fun hn => hn⟩
  simp only [MedicationEntry.calculate_next_due]
  rw [if_pos h]

/-- C8 witness at a concrete as-needed item with a non-empty history. -/
theorem C8_witness :
    sampleAsNeeded.data.frequency = FREQUENCY_AS_NEEDED ∧
    ((sampleAsNeeded.update_status ⟨⟨2025, 8, 7⟩, ⟨11, 30⟩⟩).1.current_status
        = STATE_NOT_DUE ∧
      sampleAsNeeded.calculate_next_due ⟨⟨2025, 8, 7⟩, ⟨11, 30⟩⟩ = sampleAsNeeded ∧
      (sampleAsNeeded.next_due = none →
        (sampleAsNeeded.update_status ⟨⟨2025, 8, 7⟩, ⟨11, 30⟩⟩).1.next_due = none)) :=
  ⟨rfl, C8_as_needed_never_due sampleAsNeeded ⟨⟨2025, 8, 7⟩, ⟨11, 30⟩⟩ rfl⟩

/-- C10.  Computing next-due for a daily/weekly/monthly entry with an empty
`times` list mutates the rule in place, setting `times` to `["09:00"]`, and
the injected default shows up in the item's serialization; when `times` is
non-empty, `update_status` leaves every rule field and the whole dose history
unchanged. -/
theorem C10_default_times_frame (e : MedicationEntry) (t t2 : DateTime)
    (hfreq : e.data.frequency = FREQUENCY_DAILY ∨
      e.data.frequency = FREQUENCY_WEEKLY ∨
      e.data.frequency = FREQUENCY_MONTHLY) :
    (e.data.times = [] →
      (e.calculate_next_due t).data.times = [⟨9, 0⟩] ∧
      (e.calculate_next_due t).to_dict.data.times = [⟨9, 0⟩]) ∧
    (e.data.times ≠ [] →
      (e.update_status t2).1.data = e.data ∧
      (e.update_status t2).1.dose_history = e.dose_history) := by
  constructor
  · intro hnil
    have hfreq' : e.data.frequency ≠ FREQUENCY_AS_NEEDED := by
      rcases hfreq with h | h | h <;> rw [h] <;> decide
    have hinj : e.inject_default_times =
        { e with data := { e.data with times := [⟨9, 0⟩] } } := by
      unfold MedicationEntry.inject_default_times
      rw [if_pos hnil]
    have key : (e.calculate_next_due t).data.times = [⟨9, 0⟩] := by
      simp only [MedicationEntry.calculate_next_due]
      rw [if_neg hfreq', hinj]
      split_ifs with h1 h2 h3
      · rfl
      · rw [calculate_weekly_data_of_ne _ t (by simp)]
      · rfl
      · rfl
    exact ⟨key, key⟩
  · intro hne
    exact ⟨update_status_data_of_ne e t2 hne, update_status_dose_history e t2⟩

/-- C10 witness: a daily item with empty `times` gets the `09:00` default
injected (also into its serialization), and a daily item with a non-empty
`times` list keeps its rule and history across `update_status`. -/
theorem C10_witness :
    (sampleDailyNoTimes.data.frequency = FREQUENCY_DAILY ∨
      sampleDailyNoTimes.data.frequency = FREQUENCY_WEEKLY ∨
      sampleDailyNoTimes.data.frequency = FREQUENCY_MONTHLY) ∧
    (sampleDailyNoTimes.calculate_next_due ⟨⟨2025, 8, 7⟩, ⟨8, 0⟩⟩).data.times
      = [⟨9, 0⟩] ∧
    (sampleDailyNoTimes.calculate_next_due ⟨⟨2025, 8, 7⟩, ⟨8, 0⟩⟩).to_dict.data.times
      = [⟨9, 0⟩] ∧
    (sampleDaily.update_status ⟨⟨2025, 8, 7⟩, ⟨8, 0⟩⟩).1.data = sampleDaily.data ∧
    (sampleDaily.update_status ⟨⟨2025, 8, 7⟩, ⟨8, 0⟩⟩).1.dose_history
      = sampleDaily.dose_history := by
  have h1 := (C10_default_times_frame sampleDailyNoTimes
    ⟨⟨2025, 8, 7⟩, ⟨8, 0⟩⟩ ⟨⟨2025, 8, 7⟩, ⟨8, 0⟩⟩ (Or.inl rfl)).1 rfl
  have h2 := (C10_default_times_frame sampleDaily
    ⟨⟨2025, 8, 7⟩, ⟨8, 0⟩⟩ ⟨⟨2025, 8, 7⟩, ⟨8, 0⟩⟩ (Or.inl rfl)).2 (by decide)
  exact ⟨Or.inl rfl, h1.1, h1.2, h2.1, h2.2⟩

theorem update_next_due_dose_history (e : MedicationEntry) (t : DateTime) :
    (e.update_next_due t).dose_history = e.dose_history := by
  simp only [MedicationEntry.update_next_due]
  split_ifs <;> simp [calculate_weekly_dose_history]

theorem record_dose_skipped_history (e : MedicationEntry) (ts : DateTime)
    (ns : String) :
    (e.record_dose_skipped ts ns).dose_history
      = e.dose_history ++ [⟨ts, false, ns⟩] := by
  simp only [MedicationEntry.record_dose_skipped]
  rw [update_status_dose_history, update_next_due_dose_history]

theorem record_dose_taken_history (e : MedicationEntry) (ts : DateTime)
    (ns : String) :
    (e.record_dose_taken ts ns).dose_history
      = e.dose_history ++ [⟨ts, true, ns⟩] := by
  simp only [MedicationEntry.record_dose_taken]
  rw [update_status_dose_history, update_next_due_dose_history]

theorem adherence_congr (e e' : MedicationEntry)
    (h : e.dose_history = e'.dose_history) :
    e.adherence_rate = e'.adherence_rate := by
  unfold MedicationEntry.adherence_rate
  rw [h]

/-- C7.  The adherence rate lies in `[0, 100]`, is `0` on an empty history,
is untouched by `update_status`, and appending a skipped occurrence (via
`record_dose_skipped`) never increases it. -/
theorem C7_adherence_rate_props (e : MedicationEntry) (t ts : DateTime)
    (ns : String) :
    (0 ≤ e.adherence_rate ∧ e.adherence_rate ≤ 100) ∧
    (e.dose_history = [] → e.adherence_rate = 0) ∧
    (e.update_status t).1.adherence_rate = e.adherence_rate ∧
    (e.record_dose_skipped ts ns).adherence_rate ≤ e.adherence_rate := by
  refine ⟨?_, ?_, ?_, ?_⟩
  · unfold MedicationEntry.adherence_rate
    split_ifs with h
    · norm_num
    · have hne : e.dose_history ≠ [] := by simpa using h
      have hn : 0 < (e.dose_history.length : ℚ) := by
        exact_mod_cast List.length_pos.mpr hne
      have hk : ((e.dose_history.filter (fun record => record.taken)).length : ℚ)
          ≤ (e.dose_history.length : ℚ) := by
        exact_mod_cast List.length_filter_le _ _
      constructor
      · positivity
      · have h1 : ((e.dose_history.filter (fun record => record.taken)).length : ℚ)
            / (e.dose_history.length : ℚ) ≤ 1 := by
          rw [div_le_one hn]; exact hk
        calc ((e.dose_history.filter (fun record => record.taken)).length : ℚ)
              / (e.dose_history.length : ℚ) * 100
            ≤ 1 * 100 := by
              exact mul_le_mul_of_nonneg_right h1 (by norm_num)
          _ = 100 := by norm_num
  · intro h
    unfold MedicationEntry.adherence_rate
    rw [if_pos (by simp [h])]
  · exact adherence_congr _ _ (update_status_dose_history e t)
  · have hh := record_dose_skipped_history e ts ns
    unfold MedicationEntry.adherence_rate
    rw [hh]
    rcases eq_or_ne e.dose_history [] with hnil | hne
    · rw [hnil]
      norm_num [List.filter]
    · have hfil : (e.dose_history ++ [(⟨ts, false, ns⟩ : DoseRecord)]).filter
          (fun record => record.taken)
          = e.dose_history.filter (fun record => record.taken) := by
        simp [List.filter_append, List.filter]
      have hlen : ((e.dose_history ++ [(⟨ts, false, ns⟩ : DoseRecord)]).length : ℚ)
          = (e.dose_history.length : ℚ) + 1 := by
        simp
      rw [if_neg (by simp), if_neg (by simp [hne]), hfil, hlen]
      have hn : 0 < (e.dose_history.length : ℚ) := by
        exact_mod_cast List.length_pos.mpr hne
      have hk : (0 : ℚ) ≤
          ((e.dose_history.filter (fun record => record.taken)).length : ℚ) := by
        positivity
      rw [div_mul_eq_mul_div, div_mul_eq_mul_div,
        div_le_div_iff₀ (by positivity) hn]
      nlinarith

/-- C7 witness at a concrete daily item with an empty history. -/
theorem C7_witness :
    (0 ≤ sampleDaily.adherence_rate ∧ sampleDaily.adherence_rate ≤ 100) ∧
    (sampleDaily.dose_history = [] → sampleDaily.adherence_rate = 0) ∧
    (sampleDaily.update_status ⟨⟨2025, 8, 7⟩, ⟨8, 0⟩⟩).1.adherence_rate
      = sampleDaily.adherence_rate ∧
    (sampleDaily.record_dose_skipped ⟨⟨2025, 8, 7⟩, ⟨9, 30⟩⟩ "").adherence_rate
      ≤ sampleDaily.adherence_rate :=
  C7_adherence_rate_props sampleDaily ⟨⟨2025, 8, 7⟩, ⟨8, 0⟩⟩
    ⟨⟨2025, 8, 7⟩, ⟨9, 30⟩⟩ ""

theorem last_taken_getLast (e : MedicationEntry) (r : DoseRecord)
    (hlast : e.dose_history.getLast? = some r) (ht : r.taken = true) :
    e.last_taken = some r.timestamp := by
  unfold MedicationEntry.last_taken
  have h1 : e.dose_history.reverse.head? = some r := by
    rw [List.head?_reverse, hlast]
  cases hrev : e.dose_history.reverse with
  | nil => rw [hrev] at h1; simp at h1
  | cons a tl =>
    rw [hrev] at h1
    simp only [List.head?_cons, Option.some.injEq] at h1
    subst h1
    rw [List.find?_cons_of_pos _ (by simpa using ht)]
    rfl

theorem monthly_value_inject (e : MedicationEntry) (t : DateTime) :
    e.inject_default_times.monthly_next_due_value t
      = e.monthly_next_due_value t := by
  unfold MedicationEntry.monthly_next_due_value MedicationEntry.last_record_is_skip
  rw [last_taken_congr e.inject_default_times e (inject_dose_history e),
    inject_dose_history]

/-- C4.  For monthly frequency with a prior taken occurrence (the most recent
ledger entry), computing next-due always yields a value — never an error —
and when the last-taken day of month does not exist in the following month it
clamps to day 1 of that following month. -/
theorem C4_monthly_clamp (e : MedicationEntry) (t : DateTime) (r : DoseRecord)
    (hfreq : e.data.frequency = FREQUENCY_MONTHLY)
    (hlast : e.dose_history.getLast? = some r) (htaken : r.taken = true) :
    ∃ nd, (e.calculate_next_due t).next_due = some nd ∧
      (daysInMonth (nextYearMonth r.timestamp.date).1
          (nextYearMonth r.timestamp.date).2 < r.timestamp.date.day →
        nd.date = ⟨(nextYearMonth r.timestamp.date).1,
          (nextYearMonth r.timestamp.date).2, 1⟩ ∧
        nd.time = r.timestamp.time) := by
  have hlt := last_taken_getLast e r hlast htaken
  have hskip : e.last_record_is_skip = false := by
    unfold MedicationEntry.last_record_is_skip
    rw [hlast]
    simp [htaken]
  have hmonth : e.calculate_next_due t
      = e.inject_default_times.calculate_monthly_next_due t := by
    simp only [MedicationEntry.calculate_next_due]
    rw [if_neg (by rw [hfreq]; decide),
      if_neg (by rw [inject_frequency, hfreq]; decide),
      if_neg (by rw [inject_frequency, hfreq]; decide),
      if_pos (by rw [inject_frequency, hfreq])]
  rw [hmonth, calculate_monthly_next_due_val, monthly_value_inject]
  unfold MedicationEntry.monthly_next_due_value
  rw [if_neg (by simp [hskip]), hlt]
  simp only []
  by_cases hday : r.timestamp.date.day ≤
      daysInMonth (nextYearMonth r.timestamp.date).1 (nextYearMonth r.timestamp.date).2
  · exact ⟨⟨⟨(nextYearMonth r.timestamp.date).1, (nextYearMonth r.timestamp.date).2,
        r.timestamp.date.day⟩, r.timestamp.time⟩,
      by rw [if_pos hday], fun hover => absurd hday (by omega)⟩
  · exact ⟨⟨⟨(nextYearMonth r.timestamp.date).1, (nextYearMonth r.timestamp.date).2,
        1⟩, r.timestamp.time⟩,
      by rw [if_neg hday], fun _ => ⟨rfl, rfl⟩⟩

/-- C4 witness: last taken 2025-08-31 (day 31 of a 31-day month); the next
due lands on September 1, not an invalid September 31. -/
theorem C4_witness :
    sampleMonthly.data.frequency = FREQUENCY_MONTHLY ∧
    sampleMonthly.dose_history.getLast?
      = some ⟨⟨⟨2025, 8, 31⟩, ⟨10, 0⟩⟩, true, ""⟩ ∧
    ∃ nd, (sampleMonthly.calculate_next_due ⟨⟨2025, 9, 15⟩, ⟨10, 0⟩⟩).next_due
        = some nd ∧
      (daysInMonth (nextYearMonth (⟨2025, 8, 31⟩ : Date)).1
          (nextYearMonth (⟨2025, 8, 31⟩ : Date)).2 < 31 →
        nd.date = ⟨(nextYearMonth (⟨2025, 8, 31⟩ : Date)).1,
          (nextYearMonth (⟨2025, 8, 31⟩ : Date)).2, 1⟩ ∧
        nd.time = ⟨10, 0⟩) :=
  ⟨rfl, rfl, C4_monthly_clamp sampleMonthly ⟨⟨2025, 9, 15⟩, ⟨10, 0⟩⟩
    ⟨⟨⟨2025, 8, 31⟩, ⟨10, 0⟩⟩, true, ""⟩ rfl rfl rfl⟩

theorem dateSpec_roundtrip (o : Option DateSpec) :
    (match o with
      | some (DateSpec.dt x) => some (DateSpec.dt (as_local x))
      | some (DateSpec.d x) => some (DateSpec.d x)
      | none => none) = o := by
  rcases o with _ | x
  · rfl
  · cases x <;> rfl

theorem medicationData_roundtrip (d : MedicationData) :
    MedicationData.from_dict d.to_dict = d := by
  unfold MedicationData.from_dict MedicationData.to_dict
  rw [dateSpec_roundtrip, dateSpec_roundtrip]

theorem doseRecord_roundtrip (r : DoseRecord) :
    DoseRecord.from_dict r.to_dict = r := rfl

theorem dose_history_roundtrip (l : List DoseRecord) :
    (l.map DoseRecord.to_dict).map DoseRecord.from_dict = l := by
  rw [List.map_map]
  have h : DoseRecord.from_dict ∘ DoseRecord.to_dict = id :=
    funext fun r => doseRecord_roundtrip r
  rw [h, List.map_id]

theorem daily_value_set_status (e : MedicationEntry) (s : String) (t : DateTime) :
    ({ e with current_status := s } : MedicationEntry).daily_next_due_value t
      = e.daily_next_due_value t := rfl

theorem weekly_value_set_status (e : MedicationEntry) (s : String) (t : DateTime)
    (t0 : TimeOfDay) :
    ({ e with current_status := s } : MedicationEntry).weekly_next_due_value t t0
      = e.weekly_next_due_value t t0 := rfl

theorem monthly_value_set_status (e : MedicationEntry) (s : String) (t : DateTime) :
    ({ e with current_status := s } : MedicationEntry).monthly_next_due_value t
      = e.monthly_next_due_value t := rfl

theorem resolve_status_set_status (e : MedicationEntry) (s : String) (l : DateTime) :
    ({ e with current_status := s } : MedicationEntry).resolve_status l
      = e.resolve_status l := rfl

theorem inject_set_status (e : MedicationEntry) (s : String) :
    ({ e with current_status := s } : MedicationEntry).inject_default_times
      = { e.inject_default_times with current_status := s } := by
  unfold MedicationEntry.inject_default_times
  by_cases h : e.data.times = [] <;> simp [h]

theorem calculate_daily_set_status (e : MedicationEntry) (s : String) (t : DateTime) :
    ({ e with current_status := s } : MedicationEntry).calculate_daily_next_due t
      = { e.calculate_daily_next_due t with current_status := s } := by
  unfold MedicationEntry.calculate_daily_next_due
  rw [daily_value_set_status]

theorem calculate_weekly_set_status (e : MedicationEntry) (s : String) (t : DateTime) :
    ({ e with current_status := s } : MedicationEntry).calculate_weekly_next_due t
      = { e.calculate_weekly_next_due t with current_status := s } := by
  simp only [MedicationEntry.calculate_weekly_next_due, inject_set_status]
  cases h : e.inject_default_times.data.times with
  | nil => simp [h]
  | cons t0 ts =>
    simp only [h]
    exact congrArg (fun nd => ({ e.inject_default_times with
      current_status := s, next_due := nd } : MedicationEntry))
      (weekly_value_set_status e.inject_default_times s t t0)

theorem calculate_monthly_set_status (e : MedicationEntry) (s : String) (t : DateTime) :
    ({ e with current_status := s } : MedicationEntry).calculate_monthly_next_due t
      = { e.calculate_monthly_next_due t with current_status := s } := by
  unfold MedicationEntry.calculate_monthly_next_due
  rw [monthly_value_set_status]

theorem calculate_next_due_set_status (e : MedicationEntry) (s : String) (t : DateTime) :
    ({ e with current_status := s } : MedicationEntry).calculate_next_due t
      = { e.calculate_next_due t with current_status := s } := by
  simp only [MedicationEntry.calculate_next_due]
  have hf1 : ({ e with current_status := s } : MedicationEntry).data.frequency
      = e.data.frequency := rfl
  rw [hf1, inject_set_status]
  have hf2 : ({ e.inject_default_times with current_status := s }
      : MedicationEntry).data.frequency
      = e.inject_default_times.data.frequency := rfl
  rw [hf2]
  split_ifs
  · rfl
  · exact calculate_daily_set_status e.inject_default_times s t
  · exact calculate_weekly_set_status e.inject_default_times s t
  · exact calculate_monthly_set_status e.inject_default_times s t
  · rfl

theorem update_status_ignores_status (e : MedicationEntry) (s : String)
    (t : DateTime) (h : e.next_due = none) :
    ((({ e with current_status := s } : MedicationEntry).update_status t).1).current_status
      = ((e.update_status t).1).current_status := by
  simp only [MedicationEntry.update_status]
  have hs : ({ e with current_status := s } : MedicationEntry).start_blocked
      (as_local t) = e.start_blocked (as_local t) := rfl
  have he : ({ e with current_status := s } : MedicationEntry).end_blocked
      (as_local t) = e.end_blocked (as_local t) := rfl
  have hf : ({ e with current_status := s } : MedicationEntry).data.frequency
      = e.data.frequency := rfl
  rw [hs, he, hf]
  split_ifs
  · rfl
  · rfl
  · rfl
  · simp only [MedicationEntry.compute_next_if_absent]
    have h' : ({ e with current_status := s } : MedicationEntry).next_due
        = none := h
    simp only [h, h']
    rw [← h]
    rw [calculate_next_due_set_status, resolve_status_set_status]

theorem entry_roundtrip (e : MedicationEntry) :
    MedicationEntry.from_dict e.to_dict
      = { e with current_status := STATE_NOT_DUE, next_due := none } := by
  simp only [MedicationEntry.from_dict, MedicationEntry.to_dict]
  rw [medicationData_roundtrip, dose_history_roundtrip]

/-- C6, counterexample part: `c6Stale` is a legitimately reached state (a
fresh daily `09:00` item evaluated at 2025-08-07T08:00, which caches
`next_due = 2025-08-07T09:00`).  Evaluating it the next morning at 08:00
gives OVERDUE from the stale cache, while its serialize/deserialize
round-trip — which drops the cache — evaluates at the same reference time to
NOT_DUE: the statuses differ, refuting the claim that re-evaluating the
reconstructed item always yields the same status as evaluating the
original. -/
def c6Stale : MedicationEntry :=
  (sampleDaily.update_status ⟨⟨2025, 8, 7⟩, ⟨8, 0⟩⟩).1

/-- C6 counterexample (see `c6Stale`): original with stale cache → OVERDUE,
round-tripped copy → NOT_DUE at the same reference time. -/
theorem C6_counterexample :
    c6Stale.next_due = some ⟨⟨2025, 8, 7⟩, ⟨9, 0⟩⟩ ∧
    (c6Stale.update_status ⟨⟨2025, 8, 8⟩, ⟨8, 0⟩⟩).1.current_status
      = STATE_OVERDUE ∧
    ((MedicationEntry.from_dict c6Stale.to_dict).update_status
        ⟨⟨2025, 8, 8⟩, ⟨8, 0⟩⟩).1.current_status = STATE_NOT_DUE ∧
    STATE_OVERDUE ≠ STATE_NOT_DUE := by
  refine ⟨rfl, rfl, rfl, ?_⟩
  decide

/-- C6, amended.  `deserialize(serialize(item))` reproduces the identical
rule and dose history in insertion order, resetting `current_status` to
NOT_DUE and dropping the cached next-due; and — provided the original's
cached next-due is absent at evaluation time (fresh or invalidated state) —
re-evaluating the reconstructed item at the same reference time yields the
same status as evaluating the original. -/
theorem C6_roundtrip_amended (e : MedicationEntry) (t : DateTime)
    (h : e.next_due = none) :
    MedicationEntry.from_dict e.to_dict
      = { e with current_status := STATE_NOT_DUE, next_due := none } ∧
    ((MedicationEntry.from_dict e.to_dict).update_status t).1.current_status
      = (e.update_status t).1.current_status := by
  refine ⟨entry_roundtrip e, ?_⟩
  rw [entry_roundtrip e]
  have hdrop : ({ e with current_status := STATE_NOT_DUE, next_due := none }
      : MedicationEntry)
      = { e with current_status := STATE_NOT_DUE } := by
    cases e
    simp_all
  rw [hdrop]
  exact update_status_ignores_status e STATE_NOT_DUE t h

/-- C6 witness: a weekly item with one taken dose and no cached next-due
round-trips exactly and re-evaluates to the same status (TAKEN) at
2025-08-04T10:00. -/
theorem C6_witness :
    sampleWeekly.next_due = none ∧
    (MedicationEntry.from_dict sampleWeekly.to_dict
      = { sampleWeekly with current_status := STATE_NOT_DUE, next_due := none } ∧
    ((MedicationEntry.from_dict sampleWeekly.to_dict).update_status
        ⟨⟨2025, 8, 4⟩, ⟨10, 0⟩⟩).1.current_status
      = (sampleWeekly.update_status ⟨⟨2025, 8, 4⟩, ⟨10, 0⟩⟩).1.current_status) :=
  ⟨rfl, C6_roundtrip_amended sampleWeekly ⟨⟨2025, 8, 4⟩, ⟨10, 0⟩⟩ rfl⟩

theorem reverse_cons_of_getLast (l : List DoseRecord) (r : DoseRecord)
    (h : l.getLast? = some r) : ∃ tl, l.reverse = r :: tl := by
  cases hrev : l.reverse with
  | nil =>
    rw [List.reverse_eq_nil_iff] at hrev
    rw [hrev] at h
    simp at h
  | cons a tl =>
    have ha : l.reverse.head? = some a := by rw [hrev]; rfl
    rw [List.head?_reverse, h] at ha
    have ha2 : r = a := by injection ha
    subst ha2
    exact ⟨tl, rfl⟩

theorem calculate_next_due_frequency (e : MedicationEntry) (t : DateTime) :
    (e.calculate_next_due t).data.frequency = e.data.frequency := by
  simp only [MedicationEntry.calculate_next_due]
  split_ifs <;>
    simp [calculate_weekly_frequency, inject_frequency]

theorem compute_next_if_absent_frequency (e : MedicationEntry) (t : DateTime) :
    (e.compute_next_if_absent t).data.frequency = e.data.frequency := by
  unfold MedicationEntry.compute_next_if_absent
  split
  · exact calculate_next_due_frequency e t
  · rfl

theorem check_skipped_true (e : MedicationEntry) (l : DateTime) (r : DoseRecord)
    (hlast : e.dose_history.getLast? = some r) (hskip : r.taken = false)
    (hcond : (e.data.frequency = FREQUENCY_DAILY ∧
        (as_local r.timestamp).date = (as_local l).date) ∨
      (e.data.frequency ≠ FREQUENCY_DAILY ∧
        ∃ nd, e.next_due = some nd ∧ dtLt (as_local l) nd = true)) :
    e.check_recently_skipped l = true := by
  have hne : e.dose_history ≠ [] := by
    intro hnil
    rw [hnil] at hlast
    simp at hlast
  obtain ⟨tl, hrev⟩ := reverse_cons_of_getLast _ r hlast
  unfold MedicationEntry.check_recently_skipped
  rw [if_neg (by simpa using hne)]
  rcases hcond with ⟨hdaily, hdate⟩ | ⟨hnotdaily, nd, hnd, hlt⟩
  · rw [if_pos hdaily, hrev]
    simp [find_most_recent_today, hdate, hskip]
  · rw [if_neg hnotdaily, hlast, hnd]
    simp [hskip, hlt]

/-- C2, amended.  When a next-due time is computed and — for daily frequency
— the most recent ledger record is a skip recorded on the current calendar
day, or — for weekly/monthly frequency — the most recent ledger entry is a
skip and the current time is still before the recomputed next-due, `evaluate`
returns SKIPPED; this outcome has priority over TAKEN, DUE and OVERDUE (in
particular over any earlier taken dose of the same period). -/
theorem C2_skip_priority_amended (e : MedicationEntry) (t : DateTime)
    (nd : DateTime) (r : DoseRecord)
    (hstart : e.start_blocked (as_local t) = false)
    (hend : e.end_blocked (as_local t) = false)
    (hfreq : e.data.frequency ≠ FREQUENCY_AS_NEEDED)
    (hnd : (e.compute_next_if_absent t).next_due = some nd)
    (hlast : e.dose_history.getLast? = some r)
    (hskip : r.taken = false)
    (hcond : (e.data.frequency = FREQUENCY_DAILY ∧
        (as_local r.timestamp).date = (as_local t).date) ∨
      (e.data.frequency ≠ FREQUENCY_DAILY ∧ dtLt (as_local t) nd = true)) :
    (e.update_status t).1.current_status = STATE_SKIPPED := by
  have hcheck : (e.compute_next_if_absent t).check_recently_skipped
      (as_local t) = true := by
    apply check_skipped_true _ _ r
    · rw [compute_next_if_absent_dose_history]
      exact hlast
    · exact hskip
    · rcases hcond with ⟨hdaily, hdate⟩ | ⟨hnotdaily, hlt⟩
      · exact Or.inl ⟨by rw [compute_next_if_absent_frequency]; exact hdaily, hdate⟩
      · exact Or.inr ⟨by rw [compute_next_if_absent_frequency]; exact hnotdaily,
          nd, hnd, hlt⟩
  simp only [MedicationEntry.update_status]
  rw [hstart, hend]
  rw [if_neg (by simp), if_neg (by simp), if_neg hfreq]
  show ((e.compute_next_if_absent t).resolve_status (as_local t)) = STATE_SKIPPED
  unfold MedicationEntry.resolve_status
  rw [hnd]
  simp only [hcheck, if_pos]

/-- C2 counterexample: a daily `09:00` item whose ledger holds a skip at
2025-08-07T09:05 and a later take at 09:10 the same day.  A skip *was*
recorded for the current scheduling period, yet `evaluate(2025-08-07T09:30)`
returns TAKEN, not SKIPPED — the code keys on the most recent record of the
day, so the claim as stated fails. -/
theorem C2_counterexample :
    (sampleDailySkipThenTake.dose_history.any (fun record =>
      !record.taken && decide ((as_local record.timestamp).date
        = (as_local ⟨⟨2025, 8, 7⟩, ⟨9, 30⟩⟩).date))) = true ∧
    (sampleDailySkipThenTake.update_status ⟨⟨2025, 8, 7⟩, ⟨9, 30⟩⟩).1.current_status
      = STATE_TAKEN ∧
    STATE_TAKEN ≠ STATE_SKIPPED :=
  ⟨rfl, rfl, by decide⟩

/-- C2 witness: take-then-skip on the same day — the most recent record of
the day is the skip, and evaluation at 2025-08-07T10:00 yields SKIPPED even
though an earlier dose of the same period was taken. -/
theorem C2_witness :
    ((sampleDailyTakeThenSkip.dose_history.getLast?
        = some ⟨⟨⟨2025, 8, 7⟩, ⟨9, 30⟩⟩, false, ""⟩) ∧
      sampleDailyTakeThenSkip.dose_history.any (fun record => record.taken) = true) ∧
    (sampleDailyTakeThenSkip.update_status ⟨⟨2025, 8, 7⟩, ⟨10, 0⟩⟩).1.current_status
      = STATE_SKIPPED :=
  ⟨⟨rfl, rfl⟩,
    C2_skip_priority_amended sampleDailyTakeThenSkip ⟨⟨2025, 8, 7⟩, ⟨10, 0⟩⟩
      ⟨⟨2025, 8, 8⟩, ⟨9, 0⟩⟩ ⟨⟨⟨2025, 8, 7⟩, ⟨9, 30⟩⟩, false, ""⟩
      rfl rfl (by decide) rfl rfl rfl (Or.inl ⟨rfl, rfl⟩)⟩

theorem update_status_main (e : MedicationEntry) (t : DateTime)
    (hstart : e.start_blocked (as_local t) = false)
    (hend : e.end_blocked (as_local t) = false)
    (hfreq : e.data.frequency ≠ FREQUENCY_AS_NEEDED) :
    (e.update_status t).1.current_status
      = (e.compute_next_if_absent t).resolve_status (as_local t) := by
  simp only [MedicationEntry.update_status]
  rw [hstart, hend]
  rw [if_neg (by simp), if_neg (by simp), if_neg hfreq]

/-- C3.  With a next-due time computed and no skip applying, the status is
OVERDUE exactly when the current time is strictly more than two hours past
next-due, and DUE whenever `nextDue ≤ currentTime ≤ nextDue + 2h`. -/
theorem C3_due_overdue_window (e : MedicationEntry) (t : DateTime) (nd : DateTime)
    (hstart : e.start_blocked (as_local t) = false)
    (hend : e.end_blocked (as_local t) = false)
    (hfreq : e.data.frequency ≠ FREQUENCY_AS_NEEDED)
    (hnd : (e.compute_next_if_absent t).next_due = some nd)
    (hskip : (e.compute_next_if_absent t).check_recently_skipped (as_local t)
      = false) :
    ((e.update_status t).1.current_status = STATE_OVERDUE ↔
      nd.toMin + 120 < (as_local t).toMin) ∧
    (nd.toMin ≤ (as_local t).toMin → (as_local t).toMin ≤ nd.toMin + 120 →
      (e.update_status t).1.current_status = STATE_DUE) := by
  rw [update_status_main e t hstart hend hfreq]
  unfold MedicationEntry.resolve_status
  rw [hnd, hskip]
  simp only [Bool.false_eq_true, if_false]
  by_cases hle : dtLe nd (as_local t) = true
  · rw [if_pos hle]
    have hle' : nd.toMin ≤ (as_local t).toMin := by
      simpa [dtLe] using hle
    by_cases hover : nd.toMin + 120 < (as_local t).toMin
    · rw [if_pos (by simpa using hover)]
      exact ⟨⟨fun _ => hover, fun _ => rfl⟩, fun _ h2 => absurd hover (by omega)⟩
    · rw [if_neg (by simpa using hover)]
      constructor
      · constructor
        · intro h; exact absurd h (by decide)
        · intro h; exact absurd h hover
      · intro _ _; rfl
  · rw [if_neg hle]
    have hlt : (as_local t).toMin < nd.toMin := by
      simp only [dtLe, decide_eq_true_eq] at hle
      omega
    have hno : ¬(nd.toMin + 120 < (as_local t).toMin) := by omega
    have hres : ∀ s : String, (s = STATE_TAKEN ∨ s = STATE_NOT_DUE) →
        ((s = STATE_OVERDUE ↔ nd.toMin + 120 < (as_local t).toMin) ∧
          (nd.toMin ≤ (as_local t).toMin → (as_local t).toMin ≤ nd.toMin + 120 →
            s = STATE_DUE)) := by
      intro s hs
      refine ⟨⟨?_, fun h => absurd h hno⟩, fun h1 _ => absurd h1 (by omega)⟩
      intro h
      rcases hs with h2 | h2 <;> rw [h2] at h <;> exact absurd h (by decide)
    apply hres
    cases e.compute_next_if_absent t |>.last_taken with
    | none => exact Or.inr rfl
    | some lt =>
      dsimp only
      split_ifs <;> first | exact Or.inl rfl | exact Or.inr rfl

/-- C3 witness: the spec scenario — daily `["09:00"]`, empty history,
evaluated at 2025-08-07T11:30 — is OVERDUE, since 11:30 is more than two
hours past the 09:00 slot it recomputes as next-due. -/
theorem C3_witness :
    (sampleDaily.compute_next_if_absent ⟨⟨2025, 8, 7⟩, ⟨11, 30⟩⟩).next_due
      = some ⟨⟨2025, 8, 7⟩, ⟨9, 0⟩⟩ ∧
    (sampleDaily.update_status ⟨⟨2025, 8, 7⟩, ⟨11, 30⟩⟩).1.current_status
      = STATE_OVERDUE :=
  ⟨rfl,
    (C3_due_overdue_window sampleDaily ⟨⟨2025, 8, 7⟩, ⟨11, 30⟩⟩
      ⟨⟨2025, 8, 7⟩, ⟨9, 0⟩⟩ rfl rfl (by decide) rfl rfl).1.mpr (by decide)⟩

/-- C5.  For weekly frequency with a prior taken occurrence, when the
skip-matching guard does not fire (the most recent ledger entry is not a skip
whose evaluation instant lies within one hour of today's scheduled slot),
next-due is the calendar date of last-taken plus 7 days at the rule's first
slot time — not at the time the dose was actually taken; and in the spec
scenario (times `["09:00"]`, dose taken 2025-08-01T09:15) evaluation at
2025-08-04T10:00 yields TAKEN while evaluation at 2025-08-08T10:00 yields
DUE. -/
theorem C5_weekly_next_due (e : MedicationEntry) (t : DateTime)
    (lt : DateTime) (t0 : TimeOfDay) (rest : List TimeOfDay)
    (htimes : e.data.times = t0 :: rest)
    (hfreq : e.data.frequency = FREQUENCY_WEEKLY)
    (hlt : e.last_taken = some lt)
    (hguard : ¬((((as_local t).toMin : Int)
        - ((as_local (combine (as_local t).date t0)).toMin : Int)).natAbs * 60 < 3600
      ∧ e.last_record_is_skip = true)) :
    (e.calculate_next_due t).next_due
      = some (as_local (combine ((as_local lt).date.addDays 7) t0)) ∧
    (sampleWeekly.update_status ⟨⟨2025, 8, 4⟩, ⟨10, 0⟩⟩).1.current_status
      = STATE_TAKEN ∧
    (sampleWeekly.update_status ⟨⟨2025, 8, 8⟩, ⟨10, 0⟩⟩).1.current_status
      = STATE_DUE := by
  refine ⟨?_, rfl, rfl⟩
  have hne : e.data.times ≠ [] := by rw [htimes]; simp
  simp only [MedicationEntry.calculate_next_due]
  rw [if_neg (by rw [hfreq]; decide), inject_of_times_ne e hne,
    if_neg (by rw [hfreq]; decide), if_pos hfreq]
  simp only [MedicationEntry.calculate_weekly_next_due, inject_of_times_ne e hne,
    htimes]
  show (e.weekly_next_due_value t t0) = _
  unfold MedicationEntry.weekly_next_due_value
  rw [if_neg hguard, hlt]

/-- C5 witness: the scenario item itself — last taken 2025-08-01T09:15,
evaluated 2025-08-04T10:00 (one hour after the slot, last record not a skip):
next-due is 2025-08-08T09:00, i.e. the last-taken date plus 7 days at the
scheduled 09:00, and the two scenario evaluations give TAKEN and DUE. -/
theorem C5_witness :
    sampleWeekly.last_taken = some ⟨⟨2025, 8, 1⟩, ⟨9, 15⟩⟩ ∧
    (sampleWeekly.calculate_next_due ⟨⟨2025, 8, 4⟩, ⟨10, 0⟩⟩).next_due
      = some ⟨⟨2025, 8, 8⟩, ⟨9, 0⟩⟩ ∧
    (sampleWeekly.update_status ⟨⟨2025, 8, 4⟩, ⟨10, 0⟩⟩).1.current_status
      = STATE_TAKEN ∧
    (sampleWeekly.update_status ⟨⟨2025, 8, 8⟩, ⟨10, 0⟩⟩).1.current_status
      = STATE_DUE := by
  have h := C5_weekly_next_due sampleWeekly ⟨⟨2025, 8, 4⟩, ⟨10, 0⟩⟩
    ⟨⟨2025, 8, 1⟩, ⟨9, 15⟩⟩ ⟨9, 0⟩ [] rfl rfl rfl (by decide)
  exact ⟨rfl, h.1, h.2.1, h.2.2⟩

/-! ## The running-minimum scans of `_calculate_daily_next_due`. -/

theorem stepMin_eq_none_iff (p : TimeOfDay → Bool) (f : TimeOfDay → DateTime)
    (nd : Option DateTime) (x : TimeOfDay) :
    stepMin p f nd x = none ↔ (nd = none ∧ p x = false) := by
  unfold stepMin
  split_ifs with hp
  · cases nd with
    | none => simp [hp]
    | some b =>
      dsimp only
      split_ifs <;> simp [hp]
  · have hp' : p x = false := by revert hp; cases p x <;> simp
    simp [hp']

theorem stepMin_some_spec (p : TimeOfDay → Bool) (f : TimeOfDay → DateTime)
    (nd : Option DateTime) (x : TimeOfDay) (m : DateTime)
    (h : stepMin p f nd x = some m) :
    (nd = some m ∨ (p x = true ∧ f x = m)) ∧
    (∀ b, nd = some b → m.toMin ≤ b.toMin) ∧
    (p x = true → m.toMin ≤ (f x).toMin) := by
  unfold stepMin at h
  split_ifs at h with hp
  · cases nd with
    | none =>
      injection h with h
      subst h
      exact ⟨Or.inr ⟨hp, rfl⟩, by simp, fun _ => le_refl _⟩
    | some b =>
      dsimp only at h
      by_cases hlt : dtLt (f x) b = true
      · rw [if_pos hlt] at h
        injection h with h
        subst h
        refine ⟨Or.inr ⟨hp, rfl⟩, ?_, fun _ => le_refl _⟩
        intro b' hb'
        injection hb' with hb'
        subst hb'
        simp only [dtLt, decide_eq_true_eq] at hlt
        omega
      · rw [if_neg hlt] at h
        injection h with h
        subst h
        refine ⟨Or.inl rfl, ?_, ?_⟩
        · intro b' hb'
          injection hb' with hb'
          subst hb'
          exact le_refl _
        · intro _
          simp only [dtLt, decide_eq_true_eq] at hlt
          omega
  · refine ⟨Or.inl h, ?_, fun hpx => absurd hpx hp⟩
    intro b hb
    rw [hb] at h
    injection h with h
    subst h
    exact le_refl _

theorem foldl_stepMin_eq_none (p : TimeOfDay → Bool) (f : TimeOfDay → DateTime)
    (l : List TimeOfDay) :
    ∀ acc, l.foldl (stepMin p f) acc = none ↔
      (acc = none ∧ ∀ x ∈ l, p x = false) := by
  induction l with
  | nil => intro acc; simp
  | cons x xs ih =>
    intro acc
    rw [List.foldl_cons, ih]
    rw [stepMin_eq_none_iff]
    constructor
    · rintro ⟨⟨hacc, hpx⟩, hall⟩
      exact ⟨hacc, fun y hy => by
        rcases List.mem_cons.mp hy with rfl | hy
        · exact hpx
        · exact hall y hy⟩
    · rintro ⟨hacc, hall⟩
      exact ⟨⟨hacc, hall x (List.mem_cons_self x xs)⟩,
        fun y hy => hall y (List.mem_cons_of_mem x hy)⟩

theorem stepMin_le_acc (p : TimeOfDay → Bool) (f : TimeOfDay → DateTime)
    (x : TimeOfDay) (b : DateTime) :
    ∃ c, stepMin p f (some b) x = some c ∧ c.toMin ≤ b.toMin := by
  unfold stepMin
  split_ifs with hp
  · dsimp only
    split_ifs with hlt
    · refine ⟨f x, rfl, ?_⟩
      simp only [dtLt, decide_eq_true_eq] at hlt
      omega
    · exact ⟨b, rfl, le_refl _⟩
  · exact ⟨b, rfl, le_refl _⟩

theorem stepMin_le_fx (p : TimeOfDay → Bool) (f : TimeOfDay → DateTime)
    (acc : Option DateTime) (x : TimeOfDay) (hp : p x = true) :
    ∃ c, stepMin p f acc x = some c ∧ c.toMin ≤ (f x).toMin := by
  unfold stepMin
  rw [if_pos hp]
  cases acc with
  | none => exact ⟨f x, rfl, le_refl _⟩
  | some b =>
    dsimp only
    split_ifs with hlt
    · exact ⟨f x, rfl, le_refl _⟩
    · refine ⟨b, rfl, ?_⟩
      simp only [dtLt, decide_eq_true_eq] at hlt
      omega

theorem foldl_stepMin_some_spec (p : TimeOfDay → Bool) (f : TimeOfDay → DateTime)
    (l : List TimeOfDay) :
    ∀ acc m, l.foldl (stepMin p f) acc = some m →
      ((acc = some m ∨ ∃ x ∈ l, p x = true ∧ f x = m) ∧
       (∀ b, acc = some b → m.toMin ≤ b.toMin) ∧
       (∀ x ∈ l, p x = true → m.toMin ≤ (f x).toMin)) := by
  induction l with
  | nil =>
    intro acc m h
    simp only [List.foldl_nil] at h
    refine ⟨Or.inl h, ?_, by simp⟩
    intro b hb
    rw [hb] at h
    injection h with h
    subst h
    exact le_refl _
  | cons x xs ih =>
    intro acc m h
    rw [List.foldl_cons] at h
    obtain ⟨ih1, ih2, ih3⟩ := ih (stepMin p f acc x) m h
    refine ⟨?_, ?_, ?_⟩
    · rcases ih1 with ha | ⟨y, hy, hpy, hfy⟩
      · rcases (stepMin_some_spec p f acc x m ha).1 with h2 | ⟨hpx, hfx⟩
        · exact Or.inl h2
        · exact Or.inr ⟨x, List.mem_cons_self x xs, hpx, hfx⟩
      · exact Or.inr ⟨y, List.mem_cons_of_mem x hy, hpy, hfy⟩
    · intro b hb
      subst hb
      obtain ⟨c, hc, hcb⟩ := stepMin_le_acc p f x b
      exact le_trans (ih2 c hc) hcb
    · intro y hy hpy
      rcases List.mem_cons.mp hy with rfl | hy
      · obtain ⟨c, hc, hcf⟩ := stepMin_le_fx p f acc y hpy
        exact le_trans (ih2 c hc) hcf
      · exact ih3 y hy hpy

theorem nextDay_ne (d : Date) : d.nextDay ≠ d := by
  unfold Date.nextDay
  split_ifs <;> intro h
  · have := congrArg Date.day h
    simp at this
  · have := congrArg Date.month h
    simp at this
  · have := congrArg Date.year h
    simp at this

theorem was_dose_handled_eq_any (e : MedicationEntry) (s : DateTime) :
    e.was_dose_handled_for_time s = e.dose_history.any (fun dose =>
      decide ((as_local dose.timestamp).date = (as_local s).date)) := by
  unfold MedicationEntry.was_dose_handled_for_time
  split_ifs with h
  · cases hd : e.dose_history with
    | nil => rfl
    | cons a l => rw [hd] at h; simp at h
  · rfl

/-- The property C1 asserts of `_calculate_daily_next_due` at entry `e` and
reference time `t`.  Slots are the `times_of_day` entries projected onto the
reference date.  (1) If some slot lies strictly after the reference time, the
result is the earliest such slot.  (2) If no slot is still in the future and
no occurrence is recorded on the reference date, the result is the earliest
slot of the date (every slot is then unhandled) even though it lies in the
past.  (3) If no slot is in the future and every slot has a recorded
occurrence on the date, the result is the first listed slot of the next
calendar day.  (4) Conversely, the result lies on the next calendar day only
when every slot of the reference date is handled. -/
def DailyNextDueSpec (e : MedicationEntry) (t : DateTime) : Prop :=
  ((∃ x ∈ e.data.times,
      dtLt (as_local t) (as_local (combine (as_local t).date x)) = true) →
    ∃ m ∈ e.data.times,
      e.daily_next_due_value t = some (as_local (combine (as_local t).date m)) ∧
      dtLt (as_local t) (as_local (combine (as_local t).date m)) = true ∧
      ∀ x ∈ e.data.times,
        dtLt (as_local t) (as_local (combine (as_local t).date x)) = true →
        (as_local (combine (as_local t).date m)).toMin
          ≤ (as_local (combine (as_local t).date x)).toMin) ∧
  ((∀ x ∈ e.data.times,
      dtLt (as_local t) (as_local (combine (as_local t).date x)) = false) →
    (∀ x ∈ e.data.times,
      e.was_dose_handled_for_time (as_local (combine (as_local t).date x)) = false) →
    ∃ m ∈ e.data.times,
      e.daily_next_due_value t = some (as_local (combine (as_local t).date m)) ∧
      ∀ x ∈ e.data.times,
        (as_local (combine (as_local t).date m)).toMin
          ≤ (as_local (combine (as_local t).date x)).toMin) ∧
  ((∀ x ∈ e.data.times,
      dtLt (as_local t) (as_local (combine (as_local t).date x)) = false) →
    (∀ x ∈ e.data.times,
      e.was_dose_handled_for_time (as_local (combine (as_local t).date x)) = true) →
    ∀ t0, e.data.times.head? = some t0 →
      e.daily_next_due_value t
        = some (as_local (combine (as_local t).date.nextDay t0))) ∧
  (∀ d, e.daily_next_due_value t = some d → d.date = (as_local t).date.nextDay →
    ∀ x ∈ e.data.times,
      e.was_dose_handled_for_time (as_local (combine (as_local t).date x)) = true)

/-- C1.  `_calculate_daily_next_due` satisfies `DailyNextDueSpec`: earliest
strictly-future slot of the reference date first; otherwise the earliest slot
with no occurrence recorded on that date (yielding a past-due next-due);
rolling to the first slot of the next day exactly when every slot of the date
has a recorded occurrence. -/
theorem C1_daily_next_due (e : MedicationEntry) (t : DateTime)
    (hne : e.data.times ≠ []) : DailyNextDueSpec e t := by
  have hv : e.daily_next_due_value t =
      (match e.data.times.foldl
          (stepMin (fun x => dtLt (as_local t) (as_local (combine (as_local t).date x)))
            (fun x => as_local (combine (as_local t).date x))) none with
        | some nd => some nd
        | none =>
          match e.data.times.foldl
              (stepMin (fun x =>
                  !(e.was_dose_handled_for_time (as_local (combine (as_local t).date x))))
                (fun x => as_local (combine (as_local t).date x))) none with
          | some nd => some nd
          | none =>
            match e.data.times with
            | [] => none
            | t0 :: _ => some (as_local (combine (as_local t).date.nextDay t0))) := rfl
  unfold DailyNextDueSpec
  cases h1 : e.data.times.foldl
      (stepMin (fun x => dtLt (as_local t) (as_local (combine (as_local t).date x)))
        (fun x => as_local (combine (as_local t).date x))) none with
  | some m1 =>
    rw [h1] at hv
    dsimp only at hv
    obtain ⟨hmem, _, hmin⟩ := foldl_stepMin_some_spec _ _ e.data.times none m1 h1
    rcases hmem with habs | ⟨x0, hx0, hpx0, hfx0⟩
    · exact absurd habs (by simp)
    refine ⟨?_, ?_, ?_, ?_⟩
    · intro _
      refine ⟨x0, hx0, ?_, hpx0, ?_⟩
      · rw [hv]
        exact congrArg some hfx0.symm
      · intro x hx hpx
        have := hmin x hx hpx
        rw [hfx0]
        exact this
    · intro hall _
      exact absurd hpx0 (by rw [hall x0 hx0]; simp)
    · intro hall _ t0 _
      exact absurd hpx0 (by rw [hall x0 hx0]; simp)
    · intro d hd hdate
      rw [hv] at hd
      injection hd with hd
      subst hd
      rw [← hfx0] at hdate
      exact absurd hdate.symm (nextDay_ne (as_local t).date)
  | none =>
    have hall1 := ((foldl_stepMin_eq_none _ _ e.data.times none).mp h1).2
    rw [h1] at hv
    dsimp only at hv
    cases h2 : e.data.times.foldl
        (stepMin (fun x =>
            !(e.was_dose_handled_for_time (as_local (combine (as_local t).date x))))
          (fun x => as_local (combine (as_local t).date x))) none with
    | some m2 =>
      rw [h2] at hv
      dsimp only at hv
      obtain ⟨hmem, _, hmin⟩ := foldl_stepMin_some_spec _ _ e.data.times none m2 h2
      rcases hmem with habs | ⟨x0, hx0, hpx0, hfx0⟩
      · exact absurd habs (by simp)
      have hunh0 : e.was_dose_handled_for_time
          (as_local (combine (as_local t).date x0)) = false := by
        simpa using hpx0
      refine ⟨?_, ?_, ?_, ?_⟩
      · rintro ⟨x, hx, hpx⟩
        exact absurd hpx (by rw [hall1 x hx]; simp)
      · intro _ hunh
        refine ⟨x0, hx0, ?_, ?_⟩
        · rw [hv]
          exact congrArg some hfx0.symm
        · intro x hx
          have hpx : (fun x =>
              !(e.was_dose_handled_for_time (as_local (combine (as_local t).date x)))) x
              = true := by
            simp only [hunh x hx]
            rfl
          have := hmin x hx hpx
          rw [hfx0]
          exact this
      · intro _ hhand t0 _
        exact absurd (hhand x0 hx0) (by rw [hunh0]; simp)
      · intro d hd hdate
        rw [hv] at hd
        injection hd with hd
        subst hd
        rw [← hfx0] at hdate
        exact absurd hdate.symm (nextDay_ne (as_local t).date)
    | none =>
      have hall2 := ((foldl_stepMin_eq_none _ _ e.data.times none).mp h2).2
      rw [h2] at hv
      dsimp only at hv
      have hhandled : ∀ x ∈ e.data.times,
          e.was_dose_handled_for_time (as_local (combine (as_local t).date x))
            = true := by
        intro x hx
        have := hall2 x hx
        simpa using this
      cases htimes : e.data.times with
      | nil => exact absurd htimes hne
      | cons t0 ts =>
        rw [htimes] at hv hall1 hhandled
        dsimp only at hv
        refine ⟨?_, ?_, ?_, ?_⟩
        · rintro ⟨x, hx, hpx⟩
          exact absurd hpx (by rw [hall1 x hx]; simp)
        · intro _ hunh
          have h0 : t0 ∈ t0 :: ts := List.mem_cons_self t0 ts
          exact absurd (hhandled t0 h0) (by rw [hunh t0 h0]; simp)
        · intro _ _ t0' ht0'
          injection ht0' with ht0'
          subst ht0'
          exact hv
        · intro d _ _ x hx
          exact hhandled x hx

/-- C1 witness: the concrete daily item with slots 09:00 and 21:00 and an
empty history satisfies the daily next-due specification; in particular at
2025-08-07T10:00 it has a future slot and the computed next-due is the 21:00
slot of the same day. -/
theorem C1_witness :
    sampleDailyTwoSlots.data.times ≠ [] ∧
    DailyNextDueSpec sampleDailyTwoSlots ⟨⟨2025, 8, 7⟩, ⟨10, 0⟩⟩ ∧
    sampleDailyTwoSlots.daily_next_due_value ⟨⟨2025, 8, 7⟩, ⟨10, 0⟩⟩
      = some ⟨⟨2025, 8, 7⟩, ⟨21, 0⟩⟩ :=
  ⟨by decide,
    C1_daily_next_due sampleDailyTwoSlots ⟨⟨2025, 8, 7⟩, ⟨10, 0⟩⟩ (by decide),
    rfl⟩

/-! ## Lemmas for idempotence of `update_status` (C9). -/

theorem daily_value_isSome (e : MedicationEntry) (t : DateTime)
    (hne : e.data.times ≠ []) :
    (e.daily_next_due_value t).isSome = true := by
  have hv : e.daily_next_due_value t =
      (match e.data.times.foldl
          (stepMin (fun x => dtLt (as_local t) (as_local (combine (as_local t).date x)))
            (fun x => as_local (combine (as_local t).date x))) none with
        | some nd => some nd
        | none =>
          match e.data.times.foldl
              (stepMin (fun x =>
                  !(e.was_dose_handled_for_time (as_local (combine (as_local t).date x))))
                (fun x => as_local (combine (as_local t).date x))) none with
          | some nd => some nd
          | none =>
            match e.data.times with
            | [] => none
            | t0 :: _ => some (as_local (combine (as_local t).date.nextDay t0))) := rfl
  rw [hv]
  cases h1 : e.data.times.foldl
      (stepMin (fun x => dtLt (as_local t) (as_local (combine (as_local t).date x)))
        (fun x => as_local (combine (as_local t).date x))) none with
  | some m1 => rfl
  | none =>
    cases h2 : e.data.times.foldl
        (stepMin (fun x =>
            !(e.was_dose_handled_for_time (as_local (combine (as_local t).date x))))
          (fun x => as_local (combine (as_local t).date x))) none with
    | some m2 => rfl
    | none =>
      cases htimes : e.data.times with
      | nil => exact absurd htimes hne
      | cons t0 ts => rfl

theorem weekly_value_isSome (e : MedicationEntry) (t : DateTime) (t0 : TimeOfDay) :
    (e.weekly_next_due_value t t0).isSome = true := by
  simp only [MedicationEntry.weekly_next_due_value]
  split
  · rfl
  · cases hl : e.last_taken with
    | some lt => rfl
    | none =>
      dsimp only
      split <;> rfl

theorem monthly_value_isSome (e : MedicationEntry) (t : DateTime) :
    (e.monthly_next_due_value t).isSome = true := by
  simp only [MedicationEntry.monthly_next_due_value]
  split_ifs with h hday
  · cases hl : e.last_taken with
    | some lt => rfl
    | none =>
      rw [hl] at h
      simp at h
  · rfl
  · cases hl : e.last_taken with
    | some lt =>
      dsimp only
      split_ifs <;> rfl
    | none => rfl

theorem calculate_weekly_isSome (e : MedicationEntry) (t : DateTime) :
    (e.calculate_weekly_next_due t).next_due.isSome = true := by
  simp only [MedicationEntry.calculate_weekly_next_due]
  cases h : e.inject_default_times.data.times with
  | nil => exact absurd h (inject_times_ne_nil e)
  | cons t0 ts => simp [h, weekly_value_isSome]

theorem calculate_next_due_isSome (e : MedicationEntry) (t : DateTime)
    (hfreq : e.data.frequency = FREQUENCY_DAILY ∨
      e.data.frequency = FREQUENCY_WEEKLY ∨
      e.data.frequency = FREQUENCY_MONTHLY) :
    (e.calculate_next_due t).next_due.isSome = true := by
  simp only [MedicationEntry.calculate_next_due]
  rcases hfreq with h | h | h
  · rw [if_neg (by rw [h]; decide), if_pos (by rw [inject_frequency, h])]
    rw [calculate_daily_next_due_val]
    exact daily_value_isSome _ t (inject_times_ne_nil e)
  · rw [if_neg (by rw [h]; decide), if_neg (by rw [inject_frequency, h]; decide),
      if_pos (by rw [inject_frequency, h])]
    exact calculate_weekly_isSome _ t
  · rw [if_neg (by rw [h]; decide), if_neg (by rw [inject_frequency, h]; decide),
      if_neg (by rw [inject_frequency, h]; decide),
      if_pos (by rw [inject_frequency, h])]
    rw [calculate_monthly_next_due_val]
    exact monthly_value_isSome _ t

theorem calculate_next_due_unknown (e : MedicationEntry) (t : DateTime)
    (h1 : e.data.frequency ≠ FREQUENCY_AS_NEEDED)
    (h2 : e.data.frequency ≠ FREQUENCY_DAILY)
    (h3 : e.data.frequency ≠ FREQUENCY_WEEKLY)
    (h4 : e.data.frequency ≠ FREQUENCY_MONTHLY) :
    e.calculate_next_due t = e.inject_default_times := by
  simp only [MedicationEntry.calculate_next_due]
  rw [if_neg h1, if_neg (by rw [inject_frequency]; exact h2),
    if_neg (by rw [inject_frequency]; exact h3),
    if_neg (by rw [inject_frequency]; exact h4)]

@[simp] theorem inject_start_date (e : MedicationEntry) :
    e.inject_default_times.data.start_date = e.data.start_date :=
  (inject_frame e).2.2.2.2.2.2.2.2.1

@[simp] theorem inject_end_date (e : MedicationEntry) :
    e.inject_default_times.data.end_date = e.data.end_date :=
  (inject_frame e).2.2.2.2.2.2.2.2.2.1

theorem calculate_weekly_data_eq (e : MedicationEntry) (t : DateTime) :
    (e.calculate_weekly_next_due t).data = e.inject_default_times.data := by
  simp only [MedicationEntry.calculate_weekly_next_due]
  cases h : e.inject_default_times.data.times with
  | nil => simp [h]
  | cons t0 ts => simp [h]

theorem calculate_next_due_start_date (e : MedicationEntry) (t : DateTime) :
    (e.calculate_next_due t).data.start_date = e.data.start_date := by
  simp only [MedicationEntry.calculate_next_due]
  split_ifs <;> simp [calculate_weekly_data_eq]

theorem calculate_next_due_end_date (e : MedicationEntry) (t : DateTime) :
    (e.calculate_next_due t).data.end_date = e.data.end_date := by
  simp only [MedicationEntry.calculate_next_due]
  split_ifs <;> simp [calculate_weekly_data_eq]

theorem compute_start_date (e : MedicationEntry) (t : DateTime) :
    (e.compute_next_if_absent t).data.start_date = e.data.start_date := by
  unfold MedicationEntry.compute_next_if_absent
  split
  · exact calculate_next_due_start_date e t
  · rfl

theorem compute_end_date (e : MedicationEntry) (t : DateTime) :
    (e.compute_next_if_absent t).data.end_date = e.data.end_date := by
  unfold MedicationEntry.compute_next_if_absent
  split
  · exact calculate_next_due_end_date e t
  · rfl

theorem start_blocked_congr (a b : MedicationEntry) (l : DateTime)
    (h : a.data.start_date = b.data.start_date) :
    a.start_blocked l = b.start_blocked l := by
  unfold MedicationEntry.start_blocked
  rw [h]

theorem end_blocked_congr (a b : MedicationEntry) (l : DateTime)
    (h : a.data.end_date = b.data.end_date) :
    a.end_blocked l = b.end_blocked l := by
  unfold MedicationEntry.end_blocked
  rw [h]

theorem decide_ne_self (s : String) : decide (s ≠ s) = false := by simp

/-- C9.  `update_status` is idempotent: an immediate second call at the same
time leaves the entry (status, next-due, rule, history) exactly as the first
call left it and fires no state-change event — the old and new status are
equal on the second call. -/
theorem C9_update_status_idempotent (e : MedicationEntry) (t : DateTime) :
    ((e.update_status t).1).update_status t = ((e.update_status t).1, false) := by
  by_cases h1 : e.start_blocked (as_local t) = true
  · have hfst : (e.update_status t).1 = { e with current_status := STATE_NOT_DUE } := by
      simp only [MedicationEntry.update_status]
      rw [if_pos h1]
    rw [hfst]
    simp only [MedicationEntry.update_status]
    rw [if_pos (show ({ e with current_status := STATE_NOT_DUE }
      : MedicationEntry).start_blocked (as_local t) = true from h1)]
    exact congrArg₂ Prod.mk rfl (decide_ne_self STATE_NOT_DUE)
  · by_cases h2 : e.end_blocked (as_local t) = true
    · have hfst : (e.update_status t).1 = { e with current_status := STATE_NOT_DUE } := by
        simp only [MedicationEntry.update_status]
        rw [if_neg h1, if_pos h2]
      rw [hfst]
      simp only [MedicationEntry.update_status]
      rw [if_neg (show ¬(({ e with current_status := STATE_NOT_DUE }
          : MedicationEntry).start_blocked (as_local t) = true) from h1),
        if_pos (show ({ e with current_status := STATE_NOT_DUE }
          : MedicationEntry).end_blocked (as_local t) = true from h2)]
      exact congrArg₂ Prod.mk rfl (decide_ne_self STATE_NOT_DUE)
    · by_cases h3 : e.data.frequency = FREQUENCY_AS_NEEDED
      · have hfst : (e.update_status t).1 = { e with current_status := STATE_NOT_DUE } :=
          congrArg Prod.fst (update_status_as_needed e t h3)
        rw [hfst, update_status_as_needed
          ({ e with current_status := STATE_NOT_DUE }) t h3]
        exact congrArg₂ Prod.mk rfl (decide_ne_self STATE_NOT_DUE)
      · have hfst : (e.update_status t).1 =
            { e.compute_next_if_absent t with
              current_status :=
                (e.compute_next_if_absent t).resolve_status (as_local t) } := by
          simp only [MedicationEntry.update_status]
          rw [if_neg h1, if_neg h2, if_neg h3]
        rw [hfst]
        set c := e.compute_next_if_absent t with hc
        set s := c.resolve_status (as_local t) with hs
        have hfre : ({ c with current_status := s }
            : MedicationEntry).data.frequency = e.data.frequency := by
          rw [show ({ c with current_status := s }
            : MedicationEntry).data.frequency = c.data.frequency from rfl, hc]
          exact compute_next_if_absent_frequency e t
        simp only [MedicationEntry.update_status]
        have hsb : ¬(({ c with current_status := s }
            : MedicationEntry).start_blocked (as_local t) = true) := by
          intro hcon
          apply h1
          rw [show ({ c with current_status := s }
            : MedicationEntry).start_blocked (as_local t)
              = c.start_blocked (as_local t) from rfl,
            start_blocked_congr c e (as_local t)
              (by rw [hc]; exact compute_start_date e t)] at hcon
          exact hcon
        have heb : ¬(({ c with current_status := s }
            : MedicationEntry).end_blocked (as_local t) = true) := by
          intro hcon
          apply h2
          rw [show ({ c with current_status := s }
            : MedicationEntry).end_blocked (as_local t)
              = c.end_blocked (as_local t) from rfl,
            end_blocked_congr c e (as_local t)
              (by rw [hc]; exact compute_end_date e t)] at hcon
          exact hcon
        have hfr : ¬(({ c with current_status := s }
            : MedicationEntry).data.frequency = FREQUENCY_AS_NEEDED) := by
          rw [hfre]
          exact h3
        rw [if_neg hsb, if_neg heb, if_neg hfr]
        have hstable : ({ c with current_status := s }
            : MedicationEntry).compute_next_if_absent t
            = { c with current_status := s } := by
          unfold MedicationEntry.compute_next_if_absent
          cases hnd : c.next_due with
          | some nd => rfl
          | none =>
            dsimp only
            rw [← hnd]
            cases he : e.next_due with
            | some nd' =>
              exfalso
              have hcn : c.next_due = some nd' := by
                rw [hc]
                unfold MedicationEntry.compute_next_if_absent
                rw [he]
                dsimp only
                exact he
              rw [hnd] at hcn
              exact Option.noConfusion hcn
            | none =>
              have hc2 : c = e.calculate_next_due t := by
                rw [hc]
                unfold MedicationEntry.compute_next_if_absent
                rw [he]
              by_cases hd : e.data.frequency = FREQUENCY_DAILY
              · exfalso
                have hsome := calculate_next_due_isSome e t (Or.inl hd)
                rw [← hc2, hnd] at hsome
                simp at hsome
              · by_cases hw : e.data.frequency = FREQUENCY_WEEKLY
                · exfalso
                  have hsome := calculate_next_due_isSome e t (Or.inr (Or.inl hw))
                  rw [← hc2, hnd] at hsome
                  simp at hsome
                · by_cases hm : e.data.frequency = FREQUENCY_MONTHLY
                  · exfalso
                    have hsome := calculate_next_due_isSome e t
                      (Or.inr (Or.inr hm))
                    rw [← hc2, hnd] at hsome
                    simp at hsome
                  · have hc3 : c = e.inject_default_times := by
                      rw [hc2]
                      exact calculate_next_due_unknown e t h3 hd hw hm
                    have htimes : ({ c with current_status := s }
                        : MedicationEntry).data.times ≠ [] := by
                      rw [show ({ c with current_status := s }
                        : MedicationEntry).data.times = c.data.times from rfl, hc3]
                      exact inject_times_ne_nil e
                    rw [calculate_next_due_unknown _ t (by rw [hfre]; exact h3)
                      (by rw [hfre]; exact hd) (by rw [hfre]; exact hw)
                      (by rw [hfre]; exact hm)]
                    exact inject_of_times_ne _ htimes
        rw [hstable]
        have hres : ({ c with current_status := s }
            : MedicationEntry).resolve_status (as_local t) = s := by
          rw [resolve_status_set_status c s (as_local t)]
        rw [hres]
        exact congrArg₂ Prod.mk rfl (decide_ne_self s)

end Med
